import Mathlib

/-!
Verification development for the go-red flow engine core
(internal/engine: message.go, node.go, engine.go; internal/registry).

The embedding models:
  * `GoVal`/`Heap`/`Message` — the message envelope of message.go, with the
    payload held as a heap address so that aliasing between clones is
    observable (a shallow-copied payload shares its address, a deep-copied
    payload gets a fresh cell).
  * `Message.clone` — Message.Clone of message.go, including the fallback to
    a shallow payload copy when JSON serialization of the payload fails.
  * `NodeRT`/`NodeRT.send` — Node.Send of node.go at the dispatch level:
    the running guard, the `port >= len(wires)` guard, the per-target clone
    and the synchronous delivery loop.  The result is `none` when the Go code
    would panic (negative port index into the wire slice).
  * `NodeM`/`FlowM`/`NewFlow`/`Flow.toJSONDef`/`Flow.start`/`Flow.stop` and
    `Engine.deployFlow` — the structural layer of engine.go, with Go maps
    determinized as association lists in insertion order.
-/

mutual

/-- GoVal models a dynamically typed Go value used as a message payload:
JSON-like constructors marshal successfully, while `unser` stands for a
value `json.Marshal` rejects (a channel, a function, a cycle, ...).
Arrays use the mutually defined GoValList for nesting. -/
inductive GoVal : Type where
  | null : GoVal
  | bool (b : Bool) : GoVal
  | num (n : Int) : GoVal
  | str (s : String) : GoVal
  | arr (xs : GoValList) : GoVal
  | unser (tag : Nat) : GoVal

inductive GoValList : Type where
  | nil : GoValList
  | cons (x : GoVal) (xs : GoValList) : GoValList

end

mutual

/-- GoVal.serializable is true exactly when `json.Marshal` succeeds on the
value: every constructor except `unser`, recursively through arrays. -/
def GoVal.serializable : GoVal → Bool
  | .null => true
  | .bool _ => true
  | .num _ => true
  | .str _ => true
  | .arr xs => GoValList.serializable xs
  | .unser _ => false

def GoValList.serializable : GoValList → Bool
  | .nil => true
  | .cons x xs => GoVal.serializable x && GoValList.serializable xs

end

/-- Heap of mutable payload cells; an address is an index into the list. -/
abbrev Heap : Type := List GoVal

/-- Heap.get reads the cell at an address (valid addresses only are used). -/
def Heap.get (h : Heap) (a : Nat) : GoVal := List.getD h a .null

/-- Heap.write mutates the cell at an address. -/
def Heap.write (h : Heap) (a : Nat) (v : GoVal) : Heap := List.set h a v

/-- Heap.size is the number of allocated cells. -/
def Heap.size (h : Heap) : Nat := List.length h

/-- Message mirrors the Message struct of message.go; the payload is either
absent (Go nil) or an address of a heap cell holding the payload value. -/
structure Message : Type where
  payload : Option Nat
  topic : String
  headers : List (String × String)
  metadata : List (String × GoVal)
  sourceID : String
  msgID : String
  timestamp : Nat

/-- Message.clone mirrors Message.Clone of message.go: topic, sourceID,
msgID and timestamp are carried over unchanged, headers and metadata are
copied into new containers, and the payload is deep-copied through JSON
marshal/unmarshal into a fresh heap cell — unless marshalling fails, in
which case the code falls back to a shallow copy that shares the payload
(the same heap address). -/
def Message.clone (h : Heap) (m : Message) : Heap × Message :=
  match m.payload with
  | none => (h, { m with payload := none })
  | some a =>
    let pv := Heap.get h a
    if pv.serializable then
      (h ++ [pv], { m with payload := some (Heap.size h) })
    else
      (h, { m with payload := some a })

/-- observePayload is what a holder of the message sees as its payload. -/
def observePayload (h : Heap) (m : Message) : Option GoVal :=
  Option.map (Heap.get h) m.payload

/-- Instance models a downstream NodeInstance as seen by Node.Send: an
identity and the result its OnMessage returns for a delivered message
(`none` = success, `some e` = the error e). -/
structure Instance : Type where
  id : String
  recvErr : Message → Option String

/-- NodeRT is the runtime view of the Node struct of node.go used by Send:
its id, the running flag, and the per-port wire table of downstream
instances. -/
structure NodeRT : Type where
  id : String
  running : Bool
  wires : List (List Instance)

/-- sendLoop mirrors the delivery loop of Node.Send: for each target in
wiring order, clone the message and invoke the target's OnMessage with the
clone on inbound port 0; on the first failure, wrap the error and stop.
The result is the final heap, the list of (target id, delivered clone)
pairs actually invoked, and the error if any. -/
def sendLoop (h : Heap) (msg : Message) :
    List Instance → Heap × List (String × Message) × Option String
  | [] => (h, [], none)
  | t :: ts =>
    let hc := Message.clone h msg
    match t.recvErr hc.2 with
    | some e =>
      (hc.1, [(t.id, hc.2)], some ("error sending message to node: " ++ e))
    | none =>
      let rest := sendLoop hc.1 msg ts
      (rest.1, (t.id, hc.2) :: rest.2.1, rest.2.2)

/-- NodeRT.send mirrors Node.Send of node.go.  The outer Option is `none`
when the Go code panics: after the `port >= len(n.wires)` guard a negative
port still reaches `n.wires[port]`, an out-of-bounds slice index.
Otherwise the result carries the final heap, the deliveries performed, and
the returned error (`none` = nil error). -/
def NodeRT.send (n : NodeRT) (h : Heap) (msg : Message) (port : Int) :
    Option (Heap × List (String × Message) × Option String) :=
  if n.running = false then
    some (h, [], some ("node " ++ n.id ++ " is not running"))
  else if (List.length n.wires : Int) ≤ port then
    some (h, [], none)
  else if port < 0 then
    none
  else
    some (sendLoop h msg (List.getD n.wires port.toNat []))

/-- FlowStatus mirrors the FlowStatus constants of engine.go. -/
inductive FlowStatus : Type where
  | stopped : FlowStatus
  | running : FlowStatus
  | error : FlowStatus
deriving Repr, DecidableEq

/-- NodeDef mirrors NodeDefinition of engine.go (the editor-only position
field is omitted); config is kept as its raw text. -/
structure NodeDef : Type where
  id : String
  typ : String
  name : String
  config : String
deriving Repr, DecidableEq

/-- WireDef mirrors WireDefinition of engine.go.  The Go port field is an
int; the structural claims are settled for well-formed definitions with a
non-negative port (a negative port makes AddWire index out of bounds in Go,
a panic path treated separately at the send level). -/
structure WireDef : Type where
  source : String
  target : String
  port : Nat
deriving Repr, DecidableEq

/-- FlowDefM mirrors FlowDefinition of engine.go, already parsed from JSON
(the unmarshalling step is outside the structural claims). -/
structure FlowDefM : Type where
  id : String
  name : String
  descr : String
  nodes : List NodeDef
  wires : List WireDef
deriving Repr, DecidableEq

/-- NodeM is the structural view of the Node struct of node.go used by the
Flow and Engine layer: identity, bound type name, raw config, the per-port
wire table of downstream node ids, the running flag, and the result the
behavior instance returns from Start (`none` = success), which stands for
the external behavior code. -/
structure NodeM : Type where
  id : String
  name : String
  typeName : String
  config : String
  wires : List (List String)
  running : Bool
  startErr : Option String
deriving Repr, DecidableEq

/-- NodeM.ofDef mirrors NewNode of node.go for a definition whose type was
resolved in the registry: the wrapper starts with an empty wire table and
not running.  Behavior Init is external and modelled as succeeding. -/
def NodeM.ofDef (nd : NodeDef) : NodeM :=
  { id := nd.id, name := nd.name, typeName := nd.typ, config := nd.config,
    wires := [], running := false, startErr := none }

/-- NodeM.start mirrors Node.Start of node.go: already-running fails, a
failing behavior start leaves the node stopped, success marks running. -/
def NodeM.start (n : NodeM) : Except String NodeM :=
  if n.running then .error ("node " ++ n.id ++ " is already running")
  else
    match n.startErr with
    | some e => .error e
    | none => .ok { n with running := true }

/-- NodeM.stopNode mirrors Node.Stop of node.go: a no-op when not running,
otherwise the running flag is cleared. -/
def NodeM.stopNode (n : NodeM) : NodeM :=
  if n.running = false then n else { n with running := false }

/-- growWires mirrors the port-table growing loop of Node.AddWire. -/
def growWires (w : List (List String)) (port : Nat) : List (List String) :=
  w ++ List.replicate (port + 1 - List.length w) []

/-- NodeM.addWire mirrors Node.AddWire of node.go: grow the port table up
to the port, then append the target to that port's list. -/
def NodeM.addWire (n : NodeM) (port : Nat) (target : String) : NodeM :=
  let w := growWires n.wires port
  { n with wires := List.set w port (List.getD w port [] ++ [target]) }

/-- lookupA is Go map lookup on the determinized association list. -/
def lookupA {α : Type} (k : String) : List (String × α) → Option α
  | [] => none
  | p :: l => if p.1 = k then some p.2 else lookupA k l

/-- setA is insert-or-replace on an association list: the determinization
of a Go map write, keeping insertion order for iteration. -/
def setA {α : Type} (l : List (String × α)) (k : String) (v : α) :
    List (String × α) :=
  if (lookupA k l).isSome then
    List.map (fun p => if p.1 = k then (k, v) else p) l
  else l ++ [(k, v)]

/-- addWireMap mirrors the `flow.Wires[source] = append(..., target)` line
of NewFlow. -/
def addWireMap (wm : List (String × List String)) (src tgt : String) :
    List (String × List String) :=
  setA wm src ((lookupA src wm).getD [] ++ [tgt])

/-- FlowM is the Flow struct of engine.go: node table, the denormalized
source-to-targets wire map, and the status.  Go maps are determinized as
association lists in insertion order. -/
structure FlowM : Type where
  id : String
  name : String
  descr : String
  nodes : List (String × NodeM)
  wireMap : List (String × List String)
  status : FlowStatus
deriving Repr, DecidableEq

/-- buildNodes mirrors the first loop of NewFlow: resolve each node type in
the registry (failing with the unknown-node-type error on the first absent
type) and insert the created node into the node table. -/
def buildNodes (reg : List String) (acc : List (String × NodeM)) :
    List NodeDef → Except String (List (String × NodeM))
  | [] => .ok acc
  | nd :: rest =>
    if nd.typ ∈ reg then
      buildNodes reg (setA acc nd.id (NodeM.ofDef nd)) rest
    else
      .error ("unknown node type: " ++ nd.typ)

/-- connectWires mirrors the second loop of NewFlow: for each wire check
that the source and target nodes exist (failing with the corresponding
not-found error), record the edge in the wire map and call addWire on the
source node. -/
def connectWires (nodes : List (String × NodeM))
    (wm : List (String × List String)) :
    List WireDef → Except String (List (String × NodeM) × List (String × List String))
  | [] => .ok (nodes, wm)
  | w :: rest =>
    match lookupA w.source nodes with
    | none => .error ("wire source node not found: " ++ w.source)
    | some src =>
      match lookupA w.target nodes with
      | none => .error ("wire target node not found: " ++ w.target)
      | some _ =>
        connectWires (setA nodes w.source (NodeM.addWire src w.port w.target))
          (addWireMap wm w.source w.target) rest

/-- NewFlow mirrors NewFlow of engine.go on an already-parsed definition:
an empty definition id is replaced by the argument id, nodes are built,
wires are connected; any failure aborts the whole construction and no flow
value is produced. -/
def NewFlow (reg : List String) (id : String) (defM : FlowDefM) :
    Except String FlowM :=
  let fid := if defM.id = "" then id else defM.id
  match buildNodes reg [] defM.nodes with
  | .error e => .error e
  | .ok nodes =>
    match connectWires nodes [] defM.wires with
    | .error e => .error e
    | .ok r =>
      .ok { id := fid, name := defM.name, descr := defM.descr,
            nodes := r.1, wireMap := r.2, status := .stopped }

/-- sdNode is the node view Flow.ToJSON emits for one table entry: id,
type name, name and config of the live node. -/
def sdNode (p : String × NodeM) : NodeDef :=
  { id := p.2.id, typ := p.2.typeName, name := p.2.name, config := p.2.config }

/-- wiresFromMap is the wire-emitting double loop of Flow.ToJSON: for each
source in the wire map, each target is emitted with the slice INDEX of the
target as the port (`for port, targetID := range targets`). -/
def wiresFromMap (wm : List (String × List String)) : List WireDef :=
  List.flatten (List.map
    (fun p => List.map
      (fun q => { source := p.1, target := q.2, port := q.1 : WireDef })
      (List.enum p.2)) wm)

/-- FlowM.toJSONDef mirrors Flow.ToJSON of engine.go (up to JSON encoding):
nodes are emitted with id, type name, name and config; wires are rebuilt
from the wire map, and the emitted port of a wire is the INDEX of the
target inside its source's target list, not the port the wire was declared
with.  No status field exists in FlowDefinition, so none is emitted. -/
def FlowM.toJSONDef (f : FlowM) : FlowDefM :=
  { id := f.id, name := f.name, descr := f.descr,
    nodes := List.map sdNode f.nodes,
    wires := wiresFromMap f.wireMap }

/-- startNodes mirrors the loop of Flow.Start: start each node in table
order; the first failure aborts the loop with a wrapped error, leaving the
failing node and all later nodes untouched and earlier nodes started. -/
def startNodes : List (String × NodeM) → (List (String × NodeM)) × Option String
  | [] => ([], none)
  | (k, n) :: rest =>
    match NodeM.start n with
    | .error e =>
      ((k, n) :: rest, some ("failed to start node " ++ n.id ++ ": " ++ e))
    | .ok n2 =>
      let r := startNodes rest
      ((k, n2) :: r.1, r.2)

/-- FlowM.start mirrors Flow.Start of engine.go: fails if already running;
otherwise starts nodes in order, returning the first failure immediately
(the status is then left unchanged); only when every node started is the
flow marked running. -/
def FlowM.start (f : FlowM) : FlowM × Option String :=
  if f.status = .running then
    (f, some ("flow " ++ f.id ++ " is already running"))
  else
    let r := startNodes f.nodes
    match r.2 with
    | some e => ({ f with nodes := r.1 }, some e)
    | none => ({ f with nodes := r.1, status := .running }, none)

/-- FlowM.stop mirrors Flow.Stop of engine.go: a no-op unless running,
otherwise every node is stopped and the flow marked stopped. -/
def FlowM.stop (f : FlowM) : FlowM :=
  if f.status = .running then
    { f with nodes := List.map (fun p => (p.1, NodeM.stopNode p.2)) f.nodes,
             status := .stopped }
  else f

/-- EngStatus mirrors the engine Status constants of engine.go. -/
inductive EngStatus : Type where
  | stopped : EngStatus
  | running : EngStatus
  | error : EngStatus
deriving Repr, DecidableEq

/-- EngineM is the Engine struct of engine.go: the registry (as the set of
registered type names), the flow table, and the status.  The storage
collaborator is external; the outcome of SaveFlow is passed to deployFlow
as a flag. -/
structure EngineM : Type where
  registry : List String
  flows : List (String × FlowM)
  status : EngStatus
deriving Repr, DecidableEq

/-- EngineM.getFlow mirrors Engine.GetFlow. -/
def EngineM.getFlow (e : EngineM) (id : String) : Option FlowM :=
  lookupA id e.flows

/-- EngineM.deployFlow mirrors Engine.DeployFlow of engine.go: FIRST any
existing flow under the id is stopped (in place in the table), THEN the
definition is saved to storage (saveOk is the external save outcome; a
failure aborts with the wrapped save error), then the new flow is
constructed (a failure aborts with the wrapped construction error), then
swapped into the table, and finally started when the engine is running
(a start failure is returned but the new flow stays in the table). -/
def EngineM.deployFlow (e : EngineM) (saveOk : Bool) (id : String)
    (defM : FlowDefM) : EngineM × Option String :=
  let flows1 :=
    match lookupA id e.flows with
    | some f => setA e.flows id (FlowM.stop f)
    | none => e.flows
  if saveOk = false then
    ({ e with flows := flows1 }, some "failed to save flow")
  else
    match NewFlow e.registry id defM with
    | .error err =>
      ({ e with flows := flows1 }, some ("failed to create flow: " ++ err))
    | .ok fl =>
      if e.status = .running then
        let r := FlowM.start fl
        match r.2 with
        | some err =>
          ({ e with flows := setA flows1 id r.1 },
           some ("failed to start flow: " ++ err))
        | none => ({ e with flows := setA flows1 id r.1 }, none)
      else
        ({ e with flows := setA flows1 id fl }, none)

/-- Heap.get_append_lt: appending fresh cells does not change existing cells. -/
theorem Heap.get_append_lt (h l : Heap) (a : Nat) (ha : a < Heap.size h) :
    Heap.get (h ++ l) a = Heap.get h a := by
  unfold Heap.get
  rw [List.getD_eq_getElem?_getD, List.getD_eq_getElem?_getD,
    List.getElem?_append_left ha]

/-- Heap.get_write_of_ne: writing one cell never changes a different cell. -/
theorem Heap.get_write_of_ne (h : Heap) (a b : Nat) (v : GoVal) (hab : a ≠ b) :
    Heap.get (Heap.write h a v) b = Heap.get h b := by
  unfold Heap.get Heap.write
  rw [List.getD_eq_getElem?_getD, List.getD_eq_getElem?_getD,
    List.getElem?_set_ne hab]

/-- instOk is a downstream instance whose OnMessage always succeeds. -/
def instOk (s : String) : Instance := { id := s, recvErr := fun _ => none }

/-- instFail is a downstream instance whose OnMessage always fails with e. -/
def instFail (s e : String) : Instance := { id := s, recvErr := fun _ => some e }

/-- C9: Message.Clone carries over the message id, topic, source node id and
timestamp of the original unchanged — a fan-out clone is the same logical
message, never given a fresh id — and the headers and metadata contents are
copied as they are. -/
theorem clone_preserves_message_identity (h : Heap) (m : Message) :
    (Message.clone h m).2.msgID = m.msgID ∧
    (Message.clone h m).2.topic = m.topic ∧
    (Message.clone h m).2.sourceID = m.sourceID ∧
    (Message.clone h m).2.timestamp = m.timestamp ∧
    (Message.clone h m).2.headers = m.headers ∧
    (Message.clone h m).2.metadata = m.metadata := by
  rcases m with ⟨p, tp, hd, md, si, mi, ts⟩
  cases p with
  | none => simp [Message.clone]
  | some a =>
    by_cases hs : (Heap.get h a).serializable <;>
      simp [Message.clone, hs]

/-- C5: send on a Node that is not running fails with the not-running error
for every message and every port, and performs no deliveries. -/
theorem send_not_running_no_delivery (n : NodeRT) (h : Heap) (msg : Message)
    (port : Int) (hr : n.running = false) :
    NodeRT.send n h msg port =
      some (h, [], some ("node " ++ n.id ++ " is not running")) := by
  unfold NodeRT.send
  simp [hr]

/-- Witness for C5 at a concrete stopped node, message and port. -/
def nodeC5 : NodeRT :=
  { id := "n5", running := false, wires := [[instOk "a"]] }

/-- Concrete message for the C5 witness. -/
def msgC5 : Message :=
  { payload := none, topic := "", headers := [], metadata := [],
    sourceID := "", msgID := "m5", timestamp := 0 }

/-- Witness for C5. -/
theorem send_not_running_no_delivery_witness :
    nodeC5.running = false ∧
    NodeRT.send nodeC5 [] msgC5 0 =
      some ([], [], some "node n5 is not running") :=
  ⟨rfl, send_not_running_no_delivery nodeC5 [] msgC5 0 rfl⟩

/-- C7: send on a running Node with zero wires attached to the given port
returns success and delivers to nobody — both when the port lies beyond
the wire table and when its list of targets is empty. -/
theorem send_unwired_port_ok (n : NodeRT) (h : Heap) (msg : Message)
    (port : Nat) (hr : n.running = true)
    (hw : List.getD n.wires port [] = []) :
    NodeRT.send n h msg (port : Int) = some (h, [], none) := by
  unfold NodeRT.send
  by_cases h2 : (List.length n.wires : Int) ≤ (port : Int)
  · simp [hr, h2]
  · have h3 : ¬ ((port : Int) < 0) := by omega
    rw [List.getD_eq_getElem?_getD] at hw
    simp [hr, h2, h3, Int.toNat_natCast, hw, sendLoop]

/-- Concrete running node with an empty wire table for the C7 witness. -/
def nodeC7 : NodeRT := { id := "n7", running := true, wires := [] }

/-- Concrete message for the C7 witness. -/
def msgC7 : Message :=
  { payload := none, topic := "t", headers := [], metadata := [],
    sourceID := "", msgID := "m7", timestamp := 0 }

/-- Witness for C7. -/
theorem send_unwired_port_ok_witness :
    nodeC7.running = true ∧ List.getD nodeC7.wires 0 [] = [] ∧
    NodeRT.send nodeC7 [] msgC7 0 = some ([], [], none) :=
  ⟨rfl, rfl, send_unwired_port_ok nodeC7 [] msgC7 0 rfl rfl⟩

/-- Counterexample for C10: on a running node, a negative port passes the
`port >= len(wires)` guard and reaches the out-of-bounds slice index — the
modelled send has no result (a Go panic), so send is not total over
arbitrary integer ports. -/
def nodeC10 : NodeRT := { id := "nX", running := true, wires := [] }

/-- Concrete message for the C10 counterexample and witness. -/
def msgC10 : Message :=
  { payload := none, topic := "", headers := [], metadata := [],
    sourceID := "", msgID := "mX", timestamp := 0 }

/-- C10 counterexample: send at port -1 panics (no value is returned). -/
theorem send_negative_port_panics_cex :
    NodeRT.send nodeC10 [] msgC10 (-1) = none := rfl

/-- C10 amended: send returns a value for every non-negative port (the
unwired-port guard covers exactly the ports at or beyond the wire-table
length, and non-negative in-range ports index safely). -/
theorem send_returns_on_nonneg_port (n : NodeRT) (h : Heap) (msg : Message)
    (port : Int) (hp : 0 ≤ port) :
    (NodeRT.send n h msg port).isSome = true := by
  unfold NodeRT.send
  by_cases h1 : n.running = false
  · simp [h1]
  · by_cases h2 : (List.length n.wires : Int) ≤ port
    · simp [h1, h2]
    · have h3 : ¬ (port < 0) := by omega
      simp [h1, h2, h3]

/-- Witness for the amended C10. -/
theorem send_returns_on_nonneg_port_witness :
    0 ≤ (5 : Int) ∧ (NodeRT.send nodeC10 [] msgC10 5).isSome = true :=
  ⟨by decide, send_returns_on_nonneg_port nodeC10 [] msgC10 5 (by decide)⟩

/-- fanOut describes the delivery list produced by a fully successful send
with a serializable payload: one clone per target in wiring order, the
k-th clone carrying a fresh payload cell at address base + k. -/
def fanOut (msg : Message) (base : Nat) : List Instance → List (String × Message)
  | [] => []
  | t :: ts => (t.id, { msg with payload := some base }) :: fanOut msg (base + 1) ts

/-- deliveredAddr reads the payload address of the k-th delivery. -/
def deliveredAddr (ds : List (String × Message)) (k : Nat) : Option Nat :=
  (ds[k]?).bind fun d => d.2.payload

/-- fanOut_ids: fanOut delivers to exactly the given targets in order. -/
theorem fanOut_ids (msg : Message) :
    ∀ (ts : List Instance) (b : Nat),
      List.map Prod.fst (fanOut msg b ts) = List.map Instance.id ts := by
  intro ts
  induction ts with
  | nil => intro b; rfl
  | cons t ts ih => intro b; simp [fanOut, ih]

/-- fanOut_addr: the k-th fanOut delivery holds payload address base + k. -/
theorem fanOut_addr (msg : Message) :
    ∀ (ts : List Instance) (b k : Nat), k < List.length ts →
      deliveredAddr (fanOut msg b ts) k = some (b + k) := by
  intro ts
  induction ts with
  | nil => intro b k hk; simp at hk
  | cons t ts ih =>
    intro b k hk
    cases k with
    | zero => simp [fanOut, deliveredAddr]
    | succ k =>
      have := ih (b + 1) k (by simpa using Nat.lt_of_succ_lt_succ hk)
      simpa [fanOut, deliveredAddr, Nat.add_assoc, Nat.add_comm 1 k] using this

/-- sendLoop_fan_out: the delivery loop, when every downstream receive
succeeds and the payload is a serializable value at a valid address,
appends one fresh payload cell per target (each holding a deep copy of the
original payload value) and delivers the fanOut clones with no error. -/
theorem sendLoop_fan_out (msg : Message) (a : Nat) (hpay : msg.payload = some a) :
    ∀ (ts : List Instance) (h : Heap),
      a < Heap.size h → (Heap.get h a).serializable = true →
      (∀ t ∈ ts, ∀ m, t.recvErr m = none) →
      sendLoop h msg ts =
        (h ++ List.replicate (List.length ts) (Heap.get h a),
         fanOut msg (Heap.size h) ts, none) := by
  intro ts
  induction ts with
  | nil => intro h _ _ _; simp [sendLoop, fanOut]
  | cons t ts ih =>
    intro h ha hser hok
    have hclone : Message.clone h msg =
        (h ++ [Heap.get h a], { msg with payload := some (Heap.size h) }) := by
      simp [Message.clone, hpay, hser]
    have hrecv : t.recvErr { msg with payload := some (Heap.size h) } = none :=
      hok t (List.mem_cons_self t ts) _
    have hsz : Heap.size (h ++ [Heap.get h a]) = Heap.size h + 1 := by
      simp [Heap.size]
    have hget : Heap.get (h ++ [Heap.get h a]) a = Heap.get h a :=
      Heap.get_append_lt h [Heap.get h a] a ha
    have hrest := ih (h ++ [Heap.get h a])
      (by simpa [hsz] using Nat.lt_succ_of_lt ha)
      (by rw [hget]; exact hser)
      (fun u hu m => hok u (List.mem_cons_of_mem t hu) m)
    simp only [sendLoop, hclone, hrecv, hrest, hsz, hget]
    simp [Prod.mk.injEq, List.replicate_succ, List.append_assoc, fanOut]

/-- C1 amended: for a running Node whose port is wired to targets ts, all
of whose receives succeed, sending a message whose payload is a
serializable value at a valid heap address delivers exactly one clone per
target in wiring order; the k-th clone holds a fresh payload cell (address
size h + k), all clone cells are pairwise distinct and distinct from the
original payload cell, and writing through one clone's payload cell is not
observable through any sibling clone's cell nor through the sender's. -/
theorem send_fan_out_independent_clones (n : NodeRT) (h : Heap) (msg : Message)
    (port : Nat) (ts : List Instance) (a : Nat)
    (hr : n.running = true)
    (hw : List.getD n.wires port [] = ts)
    (hpay : msg.payload = some a)
    (ha : a < Heap.size h)
    (hser : (Heap.get h a).serializable = true)
    (hok : ∀ t ∈ ts, ∀ m, t.recvErr m = none) :
    NodeRT.send n h msg (port : Int) =
      some (h ++ List.replicate (List.length ts) (Heap.get h a),
            fanOut msg (Heap.size h) ts, none) ∧
    List.map Prod.fst (fanOut msg (Heap.size h) ts) = List.map Instance.id ts ∧
    (∀ k, k < List.length ts →
      deliveredAddr (fanOut msg (Heap.size h) ts) k = some (Heap.size h + k)) ∧
    (∀ i j, i < List.length ts → j < List.length ts → i ≠ j →
      Heap.size h + i ≠ Heap.size h + j ∧
      ∀ v, Heap.get
          (Heap.write (h ++ List.replicate (List.length ts) (Heap.get h a))
            (Heap.size h + i) v)
          (Heap.size h + j) =
        Heap.get (h ++ List.replicate (List.length ts) (Heap.get h a))
          (Heap.size h + j)) ∧
    (∀ i, i < List.length ts → Heap.size h + i ≠ a ∧
      ∀ v, Heap.get
          (Heap.write (h ++ List.replicate (List.length ts) (Heap.get h a))
            (Heap.size h + i) v) a =
        Heap.get (h ++ List.replicate (List.length ts) (Heap.get h a)) a) := by
  have hloop := sendLoop_fan_out msg a hpay ts h ha hser hok
  constructor
  · unfold NodeRT.send
    by_cases h2 : (List.length n.wires : Int) ≤ (port : Int)
    · have hlen : List.length n.wires ≤ port := by exact_mod_cast h2
      have hnil : List.getD n.wires port [] = [] := by
        rw [List.getD_eq_getElem?_getD, List.getElem?_eq_none hlen]
        rfl
      rw [hnil] at hw
      simp [hr, h2, ← hw, fanOut]
    · have h3 : ¬ ((port : Int) < 0) := by omega
      rw [List.getD_eq_getElem?_getD] at hw
      simp [hr, h2, h3, Int.toNat_natCast, hw, hloop]
  refine ⟨fanOut_ids msg ts (Heap.size h), fanOut_addr msg ts (Heap.size h), ?_, ?_⟩
  · intro i j hi hj hij
    have hne : Heap.size h + i ≠ Heap.size h + j := by omega
    exact ⟨hne, fun v => Heap.get_write_of_ne _ _ _ v hne⟩
  · intro i hi
    have hne : Heap.size h + i ≠ a := by omega
    exact ⟨hne, fun v => Heap.get_write_of_ne _ _ _ v hne⟩

/-- Concrete message (payload at heap address 0) for the C1 theorems. -/
def msgC1 : Message :=
  { payload := some 0, topic := "t", headers := [], metadata := [],
    sourceID := "s", msgID := "m1", timestamp := 3 }

/-- Concrete running node with one port wired to two targets for C1. -/
def nodeC1 : NodeRT :=
  { id := "n1", running := true, wires := [[instOk "a", instOk "b"]] }

/-- C1 counterexample: with a payload whose JSON serialization fails, Clone
falls back to a shallow copy, so both delivered clones and the original
message share payload cell 0; writing that cell (mutating one delivered
clone payload) is observed by the sibling delivery and by the sender. -/
theorem send_clone_sharing_cex :
    NodeRT.send nodeC1 [GoVal.unser 0] msgC1 0 =
      some ([GoVal.unser 0], [("a", msgC1), ("b", msgC1)], none) ∧
    observePayload [GoVal.unser 0] msgC1 = some (GoVal.unser 0) ∧
    observePayload (Heap.write [GoVal.unser 0] 0 (GoVal.str "mutated")) msgC1 =
      some (GoVal.str "mutated") :=
  ⟨rfl, rfl, rfl⟩

/-- Witness for the amended C1 at a concrete serializable payload: two
independent clones with fresh distinct payload cells 1 and 2. -/
theorem send_fan_out_independent_clones_witness :
    NodeRT.send nodeC1 [GoVal.num 7] msgC1 0 =
      some ([GoVal.num 7, GoVal.num 7, GoVal.num 7],
            [("a", { msgC1 with payload := some 1 }),
             ("b", { msgC1 with payload := some 2 })], none) :=
  (send_fan_out_independent_clones nodeC1 [GoVal.num 7] msgC1 0
    [instOk "a", instOk "b"] 0 rfl rfl rfl (by decide) rfl
    (by
      intro t ht m
      cases ht with
      | head => rfl
      | tail _ ht2 =>
        cases ht2 with
        | head => rfl
        | tail _ ht3 => cases ht3)).1

/-- sendLoop_stops_at_failure: when the targets before `bad` all succeed
and `bad` fails with error e, the loop returns the wrapped error, invokes
exactly the preceding targets and `bad` itself in order, and attempts no
target after `bad`. -/
theorem sendLoop_stops_at_failure (msg : Message) (bad : Instance)
    (post : List Instance) (e : String)
    (hbad : ∀ m, bad.recvErr m = some e) :
    ∀ (pre : List Instance) (h : Heap),
      (∀ t ∈ pre, ∀ m, t.recvErr m = none) →
      ∃ h' ds,
        sendLoop h msg (pre ++ bad :: post) =
          (h', ds, some ("error sending message to node: " ++ e)) ∧
        List.map Prod.fst ds = List.map Instance.id pre ++ [bad.id] := by
  intro pre
  induction pre with
  | nil =>
    intro h _
    refine ⟨(Message.clone h msg).1, [(bad.id, (Message.clone h msg).2)], ?_, rfl⟩
    simp [sendLoop, hbad]
  | cons t pre ih =>
    intro h hok
    have hrecv : t.recvErr (Message.clone h msg).2 = none :=
      hok t (List.mem_cons_self t pre) _
    obtain ⟨h', ds, hseq, hids⟩ :=
      ih (Message.clone h msg).1 (fun u hu m => hok u (List.mem_cons_of_mem t hu) m)
    refine ⟨h', (t.id, (Message.clone h msg).2) :: ds, ?_, ?_⟩
    · simp [sendLoop, hrecv, hseq]
    · simp [hids]

/-- C6 amended: when the targets on a port before some failing target all
succeed and that target's receive fails with e, send returns the error
wrapped with the fixed context string (which does not name the target),
synchronously to its caller; exactly the preceding targets and the failing
one were delivered to, and no target after the failing one is attempted. -/
theorem send_aborts_on_delivery_error (n : NodeRT) (h : Heap) (msg : Message)
    (port : Nat) (pre : List Instance) (bad : Instance) (post : List Instance)
    (e : String)
    (hr : n.running = true)
    (hw : List.getD n.wires port [] = pre ++ bad :: post)
    (hok : ∀ t ∈ pre, ∀ m, t.recvErr m = none)
    (hbad : ∀ m, bad.recvErr m = some e) :
    ∃ h' ds,
      NodeRT.send n h msg (port : Int) =
        some (h', ds, some ("error sending message to node: " ++ e)) ∧
      List.map Prod.fst ds = List.map Instance.id pre ++ [bad.id] := by
  obtain ⟨h', ds, hseq, hids⟩ := sendLoop_stops_at_failure msg bad post e hbad pre h hok
  have hlt : port < List.length n.wires := by
    by_contra hge
    have hlen : List.length n.wires ≤ port := Nat.le_of_not_lt hge
    have hnil : List.getD n.wires port [] = [] := by
      rw [List.getD_eq_getElem?_getD, List.getElem?_eq_none hlen]
      rfl
    rw [hnil] at hw
    simp at hw
  have h2 : ¬ ((List.length n.wires : Int) ≤ (port : Int)) :=
    by exact_mod_cast Nat.not_le.mpr hlt
  have h3 : ¬ ((port : Int) < 0) := by omega
  refine ⟨h', ds, ?_, hids⟩
  unfold NodeRT.send
  rw [List.getD_eq_getElem?_getD] at hw
  simp [hr, h2, h3, Int.toNat_natCast, hw, hseq]

/-- Concrete message for the C6 theorems. -/
def msgC6 : Message :=
  { payload := none, topic := "", headers := [], metadata := [],
    sourceID := "", msgID := "m6", timestamp := 0 }

/-- Concrete node whose second target fails, first configuration. -/
def nodeC6a : NodeRT :=
  { id := "n6", running := true,
    wires := [[instOk "first", instFail "tgtOne" "boom", instOk "after1"]] }

/-- Concrete node whose second target fails, second configuration. -/
def nodeC6b : NodeRT :=
  { id := "n6", running := true,
    wires := [[instOk "first", instFail "tgtTwo" "boom", instOk "after2"]] }

/-- C6 counterexample: two configurations that differ only in the identity
of the failing target produce the very same error value, so the error
wrapped by send does not identify the failed target (the wrap is the fixed
string context of node.go). -/
theorem send_error_lacks_target_identity_cex :
    NodeRT.send nodeC6a [] msgC6 0 =
      some ([], [("first", msgC6), ("tgtOne", msgC6)],
            some "error sending message to node: boom") ∧
    NodeRT.send nodeC6b [] msgC6 0 =
      some ([], [("first", msgC6), ("tgtTwo", msgC6)],
            some "error sending message to node: boom") ∧
    ("tgtOne" : String) ≠ "tgtTwo" :=
  ⟨rfl, rfl, by decide⟩

/-- Witness for the amended C6. -/
theorem send_aborts_on_delivery_error_witness :
    ∃ h' ds,
      NodeRT.send nodeC6a [] msgC6 0 =
        some (h', ds, some ("error sending message to node: " ++ "boom")) ∧
      List.map Prod.fst ds =
        List.map Instance.id [instOk "first"] ++ [(instFail "tgtOne" "boom").id] :=
  send_aborts_on_delivery_error nodeC6a [] msgC6 0
    [instOk "first"] (instFail "tgtOne" "boom") [instOk "after1"] "boom"
    rfl rfl
    (by
      intro t ht m
      cases ht with
      | head => rfl
      | tail _ ht2 => cases ht2)
    (fun _ => rfl)

/-- startNodes_first_failure: the start loop started the nodes before the
first failing node (and they stay started), returns the wrapped error of
the failing node, and does not attempt the nodes after it. -/
theorem startNodes_first_failure (k : String) (bad : NodeM)
    (post : List (String × NodeM)) (e : String)
    (hbr : bad.running = false) (hbe : bad.startErr = some e) :
    ∀ (pre : List (String × NodeM)),
      (∀ p ∈ pre, p.2.running = false ∧ p.2.startErr = none) →
      startNodes (pre ++ (k, bad) :: post) =
        (List.map (fun p => (p.1, { p.2 with running := true })) pre
           ++ (k, bad) :: post,
         some ("failed to start node " ++ bad.id ++ ": " ++ e)) := by
  intro pre
  induction pre with
  | nil =>
    intro _
    simp [startNodes, NodeM.start, hbr, hbe]
  | cons p pre ih =>
    intro hpre
    obtain ⟨hr0, he0⟩ := hpre p (List.mem_cons_self p pre)
    have hrest := ih (fun q hq => hpre q (List.mem_cons_of_mem p hq))
    rcases p with ⟨pk, pn⟩
    simp only [List.cons_append, startNodes, NodeM.start] at *
    simp [hr0, he0, hrest]

/-- C2 amended: starting a non-running Flow with a first failing node
returns that node's wrapped start error immediately: nodes before it are
started and stay started (no rollback), the failing node and all later
nodes are left unstarted (not attempted), and the Flow keeps its previous
status — it is not marked running. -/
theorem flowStart_first_failure (f : FlowM) (pre : List (String × NodeM))
    (k : String) (bad : NodeM) (post : List (String × NodeM)) (e : String)
    (hs : f.status ≠ FlowStatus.running)
    (hn : f.nodes = pre ++ (k, bad) :: post)
    (hpre : ∀ p ∈ pre, p.2.running = false ∧ p.2.startErr = none)
    (hbr : bad.running = false) (hbe : bad.startErr = some e) :
    FlowM.start f =
      ({ f with nodes := List.map (fun p => (p.1, { p.2 with running := true })) pre
                  ++ (k, bad) :: post },
       some ("failed to start node " ++ bad.id ++ ": " ++ e)) ∧
    (FlowM.start f).1.status = f.status := by
  have hsn := startNodes_first_failure k bad post e hbr hbe pre hpre
  constructor
  · unfold FlowM.start
    simp [hs, hn, hsn]
  · unfold FlowM.start
    simp [hs, hn, hsn]

/-- ndC2 builds a concrete stopped node whose behavior start result is se. -/
def ndC2 (i : String) (se : Option String) : NodeM :=
  { id := i, name := "", typeName := "t", config := "", wires := [],
    running := false, startErr := se }

/-- Concrete flow for the C2 theorems: node b fails to start. -/
def flowC2 : FlowM :=
  { id := "fl2", name := "", descr := "",
    nodes := [("a", ndC2 "a" none), ("b", ndC2 "b" (some "nope")),
              ("c", ndC2 "c" none)],
    wireMap := [], status := FlowStatus.stopped }

/-- C2 counterexample: when node b fails to start, Flow.Start returns the
error at once — node c is never attempted (still stopped), and the flow is
NOT marked running (status stays stopped), contradicting the claimed
best-effort, still-marked-running behavior. -/
theorem flowStart_aborts_cex :
    FlowM.start flowC2 =
      ({ flowC2 with nodes := [("a", { ndC2 "a" none with running := true }),
                               ("b", ndC2 "b" (some "nope")),
                               ("c", ndC2 "c" none)] },
       some "failed to start node b: nope") ∧
    (FlowM.start flowC2).1.status = FlowStatus.stopped ∧
    Option.map NodeM.running (lookupA "c" (FlowM.start flowC2).1.nodes) =
      some false := by
  refine ⟨by decide, by decide, by decide⟩

/-- Witness for the amended C2. -/
theorem flowStart_first_failure_witness :
    FlowM.start flowC2 =
      ({ flowC2 with nodes := [("a", { ndC2 "a" none with running := true }),
                               ("b", ndC2 "b" (some "nope")),
                               ("c", ndC2 "c" none)] },
       some ("failed to start node " ++ "b" ++ ": " ++ "nope")) ∧
    (FlowM.start flowC2).1.status = flowC2.status :=
  flowStart_first_failure flowC2 [("a", ndC2 "a" none)] "b"
    (ndC2 "b" (some "nope")) [("c", ndC2 "c" none)] "nope"
    (by decide) rfl
    (by
      intro p hp
      cases hp with
      | head => exact ⟨rfl, rfl⟩
      | tail _ h2 => cases h2)
    rfl rfl

/-- lookupA_setA: after an insert-or-replace, looking the key up yields the
new value. -/
theorem lookupA_setA {α : Type} (l : List (String × α)) (k : String) (v : α) :
    lookupA k (setA l k v) = some v := by
  unfold setA
  split
  case isTrue h =>
    induction l with
    | nil => simp [lookupA] at h
    | cons p l ih =>
      by_cases hp : p.1 = k
      · simp [lookupA, hp]
      · simp only [lookupA, hp, if_false] at h
        simp [lookupA, hp, ih h]
  case isFalse h =>
    induction l with
    | nil => simp [lookupA]
    | cons p l ih =>
      by_cases hp : p.1 = k
      · exact absurd (by simp [lookupA, hp]) h
      · simp only [lookupA, hp, if_false] at h ⊢
        exact ih h

/-- C3 amended: when persistence of the new definition fails, deploy
aborts with the save error and no new Flow is swapped in — the Flow under
the id is still the previously deployed one — but it is NOT untouched: it
was already stopped before the persistence attempt (the result is exactly
the old engine with the old Flow stopped in place, independent of the new
definition). -/
theorem deploy_save_failure_stops_old (e : EngineM) (id : String)
    (defM : FlowDefM) (old : FlowM)
    (hold : lookupA id e.flows = some old) :
    EngineM.deployFlow e false id defM =
      ({ e with flows := setA e.flows id (FlowM.stop old) },
       some "failed to save flow") ∧
    EngineM.getFlow (EngineM.deployFlow e false id defM).1 id =
      some (FlowM.stop old) := by
  have h1 : EngineM.deployFlow e false id defM =
      ({ e with flows := setA e.flows id (FlowM.stop old) },
       some "failed to save flow") := by
    unfold EngineM.deployFlow
    simp [hold]
  refine ⟨h1, ?_⟩
  rw [h1]
  unfold EngineM.getFlow
  exact lookupA_setA e.flows id (FlowM.stop old)

/-- Concrete running old flow deployed under f1 for the C3 theorems. -/
def oldFlowC3 : FlowM :=
  { id := "f1", name := "", descr := "",
    nodes := [("a", { id := "a", name := "", typeName := "t", config := "",
                      wires := [], running := true, startErr := none })],
    wireMap := [], status := FlowStatus.running }

/-- Concrete engine holding oldFlowC3 for the C3 theorems. -/
def engC3 : EngineM :=
  { registry := ["t"], flows := [("f1", oldFlowC3)], status := EngStatus.running }

/-- Concrete replacement definition for the C3 theorems. -/
def defC3 : FlowDefM :=
  { id := "f1", name := "", descr := "", nodes := [], wires := [] }

/-- C3 counterexample: with persistence failing, deploy aborts with the
save error, and get_flow still returns the old Flow — but that Flow is no
longer the untouched one: it has been stopped (status stopped, its node no
longer running), because DeployFlow stops the existing flow BEFORE
attempting to persist. -/
theorem deploy_save_failure_cex :
    EngineM.deployFlow engC3 false "f1" defC3 =
      ({ engC3 with
          flows := [("f1",
            { oldFlowC3 with
                nodes := [("a", { id := "a", name := "", typeName := "t",
                                  config := "", wires := [], running := false,
                                  startErr := none })],
                status := FlowStatus.stopped })] },
       some "failed to save flow") ∧
    EngineM.getFlow (EngineM.deployFlow engC3 false "f1" defC3).1 "f1" ≠
      some oldFlowC3 ∧
    Option.map FlowM.status
        (EngineM.getFlow (EngineM.deployFlow engC3 false "f1" defC3).1 "f1") =
      some FlowStatus.stopped := by
  refine ⟨by decide, by decide, by decide⟩

/-- Witness for the amended C3. -/
theorem deploy_save_failure_stops_old_witness :
    EngineM.deployFlow engC3 false "f1" defC3 =
      ({ engC3 with flows := setA engC3.flows "f1" (FlowM.stop oldFlowC3) },
       some "failed to save flow") ∧
    EngineM.getFlow (EngineM.deployFlow engC3 false "f1" defC3).1 "f1" =
      some (FlowM.stop oldFlowC3) :=
  deploy_save_failure_stops_old engC3 "f1" defC3 oldFlowC3 rfl

/-- lookupA_map_replace: replacing the value at key k does not change
lookups at other keys. -/
theorem lookupA_map_replace {α : Type} (k s : String) (v : α) (hks : s ≠ k) :
    ∀ l : List (String × α),
      lookupA s (List.map (fun p => if p.1 = k then (k, v) else p) l) =
        lookupA s l := by
  intro l
  induction l with
  | nil => rfl
  | cons p l ih =>
    by_cases hp : p.1 = k
    · have hk : ¬ (k = s) := fun hh => hks hh.symm
      have hp2 : ¬ (p.1 = s) := by rw [hp]; exact hk
      simp [lookupA, hp, hk, hp2, ih]
    · simp [lookupA, hp, ih]

/-- lookupA_append: lookup over an appended list tries the left part first. -/
theorem lookupA_append {α : Type} (s : String) (l l2 : List (String × α)) :
    lookupA s (l ++ l2) =
      match lookupA s l with
      | some v => some v
      | none => lookupA s l2 := by
  induction l with
  | nil => rfl
  | cons p l ih => by_cases hp : p.1 = s <;> simp [lookupA, hp, ih]

/-- lookupA_setA_isSome: after insert-or-replace at key k, a key is
present exactly when it is k or was present before. -/
theorem lookupA_setA_isSome {α : Type} (l : List (String × α)) (k s : String)
    (v : α) :
    (lookupA s (setA l k v)).isSome = true ↔
      s = k ∨ (lookupA s l).isSome = true := by
  by_cases hs : s = k
  · subst hs
    simp [lookupA_setA]
  · unfold setA
    split
    next h =>
      rw [lookupA_map_replace k s v hs]
      simp [hs]
    next h =>
      rw [lookupA_append]
      cases hl : lookupA s l with
      | some v2 => simp [hs, hl]
      | none =>
        have hk : ¬ (k = s) := fun hh => hs hh.symm
        simp [hs, hl, lookupA, hk]

/-- buildNodes_missing_type: when some definition references a type absent
from the registry, node construction fails with the unknown-node-type
error of the first such type. -/
theorem buildNodes_missing_type (reg : List String) :
    ∀ (nds : List NodeDef) (acc : List (String × NodeM)),
      (∃ nd ∈ nds, nd.typ ∉ reg) →
      ∃ t, t ∉ reg ∧ buildNodes reg acc nds = .error ("unknown node type: " ++ t) := by
  intro nds
  induction nds with
  | nil =>
    intro acc h
    simp at h
  | cons nd rest ih =>
    intro acc h
    by_cases ht : nd.typ ∈ reg
    · obtain ⟨x, hx, hxt⟩ := h
      rcases List.mem_cons.mp hx with rfl | hx2
      · exact absurd ht hxt
      · obtain ⟨t, htr, herr⟩ := ih (setA acc nd.id (NodeM.ofDef nd)) ⟨x, hx2, hxt⟩
        exact ⟨t, htr, by simp [buildNodes, ht, herr]⟩
    · exact ⟨nd.typ, ht, by simp [buildNodes, ht]⟩

/-- buildNodes_ok_all_present: when every referenced type is registered,
node construction succeeds and the resulting table holds exactly the keys
of the accumulator plus the definition node ids. -/
theorem buildNodes_ok_all_present (reg : List String) :
    ∀ (nds : List NodeDef) (acc : List (String × NodeM)),
      (∀ nd ∈ nds, nd.typ ∈ reg) →
      ∃ r, buildNodes reg acc nds = .ok r ∧
        (∀ s, (lookupA s r).isSome = true ↔
          (lookupA s acc).isSome = true ∨ s ∈ List.map NodeDef.id nds) := by
  intro nds
  induction nds with
  | nil =>
    intro acc _
    exact ⟨acc, rfl, by simp⟩
  | cons nd rest ih =>
    intro acc hall
    have ht : nd.typ ∈ reg := hall nd (List.mem_cons_self nd rest)
    obtain ⟨r, hr, hkeys⟩ := ih (setA acc nd.id (NodeM.ofDef nd))
      (fun x hx => hall x (List.mem_cons_of_mem nd hx))
    refine ⟨r, by simp [buildNodes, ht, hr], ?_⟩
    intro s
    rw [hkeys s, lookupA_setA_isSome]
    simp only [List.map_cons, List.mem_cons]
    tauto

/-- connectWires_dangling: when some wire references a source or target id
outside the node table (whose key set is ids), wiring fails with the
corresponding not-found error. -/
theorem connectWires_dangling (ids : List String) :
    ∀ (ws : List WireDef) (nodes : List (String × NodeM))
      (wm : List (String × List String)),
      (∀ s, (lookupA s nodes).isSome = true ↔ s ∈ ids) →
      (∃ w ∈ ws, w.source ∉ ids ∨ w.target ∉ ids) →
      ∃ s, connectWires nodes wm ws = .error ("wire source node not found: " ++ s) ∨
           connectWires nodes wm ws = .error ("wire target node not found: " ++ s) := by
  intro ws
  induction ws with
  | nil =>
    intro nodes wm _ h
    simp at h
  | cons w ws ih =>
    intro nodes wm hkeys hex
    cases hsrc : lookupA w.source nodes with
    | none => exact ⟨w.source, Or.inl (by simp [connectWires, hsrc])⟩
    | some src =>
      cases htgt : lookupA w.target nodes with
      | none => exact ⟨w.target, Or.inr (by simp [connectWires, hsrc, htgt])⟩
      | some tgt =>
        have hsrcin : w.source ∈ ids := (hkeys w.source).mp (by simp [hsrc])
        have htgtin : w.target ∈ ids := (hkeys w.target).mp (by simp [htgt])
        obtain ⟨x, hx, hxd⟩ := hex
        rcases List.mem_cons.mp hx with rfl | hx2
        · rcases hxd with hh | hh
          · exact absurd hsrcin hh
          · exact absurd htgtin hh
        · have hkeys2 : ∀ s,
              (lookupA s (setA nodes w.source (NodeM.addWire src w.port w.target))).isSome = true ↔
                s ∈ ids := by
            intro s
            rw [lookupA_setA_isSome]
            constructor
            · rintro (rfl | hs)
              · exact hsrcin
              · exact (hkeys s).mp hs
            · intro hs
              right
              exact (hkeys s).mpr hs
          obtain ⟨s, hcase⟩ := ih
            (setA nodes w.source (NodeM.addWire src w.port w.target))
            (addWireMap wm w.source w.target) hkeys2 ⟨x, hx2, hxd⟩
          refine ⟨s, ?_⟩
          rcases hcase with hc | hc
          · exact Or.inl (by simp [connectWires, hsrc, htgt, hc])
          · exact Or.inr (by simp [connectWires, hsrc, htgt, hc])

/-- C4 amended: Flow construction is all-or-nothing (a failure yields an
error and no flow value).  Every definition referencing at least one node
type absent from the registry fails with the unknown-node-type error; every
definition whose node types are ALL registered and containing a wire whose
source or target id is not among the definition node ids fails with the
corresponding wire-not-found (dangling reference) error.  Unknown-type
failures take precedence over dangling-wire failures. -/
theorem newFlow_all_or_nothing :
    (∀ (reg : List String) (id : String) (defM : FlowDefM),
        (∃ nd ∈ defM.nodes, nd.typ ∉ reg) →
        ∃ t, t ∉ reg ∧ NewFlow reg id defM = .error ("unknown node type: " ++ t)) ∧
    (∀ (reg : List String) (id : String) (defM : FlowDefM),
        (∀ nd ∈ defM.nodes, nd.typ ∈ reg) →
        (∃ w ∈ defM.wires, w.source ∉ List.map NodeDef.id defM.nodes ∨
                           w.target ∉ List.map NodeDef.id defM.nodes) →
        ∃ s, NewFlow reg id defM = .error ("wire source node not found: " ++ s) ∨
             NewFlow reg id defM = .error ("wire target node not found: " ++ s)) := by
  constructor
  · intro reg id defM hex
    obtain ⟨t, ht, herr⟩ := buildNodes_missing_type reg defM.nodes [] hex
    exact ⟨t, ht, by simp [NewFlow, herr]⟩
  · intro reg id defM hall hex
    obtain ⟨r, hr, hkeys⟩ := buildNodes_ok_all_present reg defM.nodes [] hall
    have hkeys2 : ∀ s, (lookupA s r).isSome = true ↔
        s ∈ List.map NodeDef.id defM.nodes := by
      intro s
      rw [hkeys s]
      simp [lookupA]
    obtain ⟨s, hcase⟩ := connectWires_dangling
      (List.map NodeDef.id defM.nodes) defM.wires r [] hkeys2 hex
    refine ⟨s, ?_⟩
    rcases hcase with hc | hc
    · exact Or.inl (by simp [NewFlow, hr, hc])
    · exact Or.inr (by simp [NewFlow, hr, hc])

/-- Concrete definition with BOTH a missing node type and a dangling wire,
for the C4 counterexample. -/
def defC4 : FlowDefM :=
  { id := "f4", name := "", descr := "",
    nodes := [{ id := "a", typ := "missing", name := "A", config := "" }],
    wires := [{ source := "x", target := "y", port := 0 }] }

/-- C4 counterexample: a definition that contains a dangling wire but also
references a missing node type fails with the unknown-node-type error, not
with a dangling-wire error — so the clause "every definition with a
dangling wire fails with DanglingWireReference" does not hold as stated. -/
theorem newFlow_dangling_preempted_cex :
    NewFlow ["t"] "f4" defC4 = .error "unknown node type: missing" ∧
    (∃ w ∈ defC4.wires, w.source ∉ List.map NodeDef.id defC4.nodes ∨
                        w.target ∉ List.map NodeDef.id defC4.nodes) ∧
    (∀ s, "unknown node type: missing" ≠ "wire source node not found: " ++ s ∧
          "unknown node type: missing" ≠ "wire target node not found: " ++ s) := by
  refine ⟨rfl, by decide, ?_⟩
  intro s
  constructor
  · intro hcontra
    have hlen := congrArg String.length hcontra
    rw [String.length_append] at hlen
    have h1 : ("unknown node type: missing" : String).length = 26 := by decide
    have h2 : ("wire source node not found: " : String).length = 28 := by decide
    omega
  · intro hcontra
    have hlen := congrArg String.length hcontra
    rw [String.length_append] at hlen
    have h1 : ("unknown node type: missing" : String).length = 26 := by decide
    have h2 : ("wire target node not found: " : String).length = 28 := by decide
    omega

/-- Concrete definition with a missing type only, for the C4 witness. -/
def defC4a : FlowDefM :=
  { id := "fa", name := "", descr := "",
    nodes := [{ id := "a", typ := "missing", name := "A", config := "" }],
    wires := [] }

/-- Concrete definition with registered types and a dangling wire, for the
C4 witness. -/
def defC4b : FlowDefM :=
  { id := "fb", name := "", descr := "",
    nodes := [{ id := "a", typ := "t", name := "A", config := "" }],
    wires := [{ source := "a", target := "ghost", port := 0 }] }

/-- Witness for the amended C4 on both clauses. -/
theorem newFlow_all_or_nothing_witness :
    (∃ t, t ∉ ["t"] ∧
      NewFlow ["t"] "fa" defC4a = .error ("unknown node type: " ++ t)) ∧
    (∃ s, NewFlow ["t"] "fb" defC4b = .error ("wire source node not found: " ++ s) ∨
          NewFlow ["t"] "fb" defC4b = .error ("wire target node not found: " ++ s)) :=
  ⟨newFlow_all_or_nothing.1 ["t"] "fa" defC4a (by decide),
   newFlow_all_or_nothing.2 ["t"] "fb" defC4b (by decide) (by decide)⟩

/-- wireMapOf is the wire map NewFlow accumulates over the definition
wires: for each wire in order, the target is appended to its source's
list. -/
def wireMapOf (ws : List WireDef) : List (String × List String) :=
  List.foldl (fun wm w => addWireMap wm w.source w.target) [] ws

/-- replace-at-key is the identity when the key is absent. -/
theorem map_replace_eq_self {α : Type} (k : String) (v : α) :
    ∀ (l : List (String × α)), k ∉ List.map Prod.fst l →
      List.map (fun p => if p.1 = k then (k, v) else p) l = l := by
  intro l
  induction l with
  | nil => intro _; rfl
  | cons p l ih =>
    intro hk
    simp only [List.map_cons, List.mem_cons] at hk
    push_neg at hk
    have hp : ¬ (p.1 = k) := fun hh => hk.1 hh.symm
    simp [hp, ih hk.2]

/-- map_fst_replace: replacing at a key keeps the key sequence. -/
theorem map_fst_replace {α : Type} (k : String) (v : α) :
    ∀ l : List (String × α),
      List.map Prod.fst (List.map (fun p => if p.1 = k then (k, v) else p) l) =
        List.map Prod.fst l := by
  intro l
  induction l with
  | nil => rfl
  | cons p l ih =>
    by_cases hp : p.1 = k
    · simp [hp, ih]
    · simp [hp, ih]

/-- map_fst_setA: setA at a present key keeps the key sequence. -/
theorem map_fst_setA {α : Type} (l : List (String × α)) (k : String) (v : α)
    (h : (lookupA k l).isSome = true) :
    List.map Prod.fst (setA l k v) = List.map Prod.fst l := by
  unfold setA
  rw [if_pos h]
  exact map_fst_replace k v l

/-- map_proj_setA: with unique keys, replacing the entry at key k by a
value with the same projection leaves the projected list unchanged. -/
theorem map_proj_setA {α β : Type} (g : String × α → β) (k : String) (v v' : α) :
    ∀ (l : List (String × α)), (List.map Prod.fst l).Nodup →
      lookupA k l = some v → g (k, v') = g (k, v) →
      List.map g (setA l k v') = List.map g l := by
  intro l
  induction l with
  | nil =>
    intro _ hlk _
    simp [lookupA] at hlk
  | cons p l ih =>
    intro hnd hlk hg
    rcases p with ⟨pk, pv⟩
    have hsome : (lookupA k ((pk, pv) :: l)).isSome = true := by simp [hlk]
    unfold setA
    rw [if_pos hsome]
    by_cases hp : pk = k
    · have hpv : pv = v := by
        simp [lookupA, hp] at hlk
        exact hlk
      have hknotin : k ∉ List.map Prod.fst l := by
        rw [List.map_cons] at hnd
        have := (List.nodup_cons.mp hnd).1
        simpa [hp] using this
      rw [List.map_cons]
      simp only [hp, if_pos rfl]
      rw [map_replace_eq_self k v' l hknotin]
      rw [List.map_cons]
      subst hp hpv
      simp only [if_true]
      rw [List.map_cons, hg]
    · have hlk2 : lookupA k l = some v := by
        simpa [lookupA, hp] using hlk
      have hnd2 : (List.map Prod.fst l).Nodup := by
        rw [List.map_cons] at hnd
        exact (List.nodup_cons.mp hnd).2
      have hrec := ih hnd2 hlk2 hg
      unfold setA at hrec
      rw [if_pos (by simp [hlk2])] at hrec
      simp only [List.map_cons, hp, if_neg hp]
      rw [hrec]
      simp

/-- setA appends when the key is absent. -/
theorem setA_of_none {α : Type} (l : List (String × α)) (k : String) (v : α)
    (h : lookupA k l = none) :
    setA l k v = l ++ [(k, v)] := by
  unfold setA
  simp [h]

/-- buildNodes_eq_map: on success with distinct node ids and a fresh
accumulator region, the node table is the accumulator followed by one
constructed node per definition, in order. -/
theorem buildNodes_eq_map (reg : List String) :
    ∀ (nds : List NodeDef) (acc r : List (String × NodeM)),
      (∀ nd ∈ nds, lookupA nd.id acc = none) →
      (List.map NodeDef.id nds).Nodup →
      buildNodes reg acc nds = .ok r →
      r = acc ++ List.map (fun nd => (nd.id, NodeM.ofDef nd)) nds := by
  intro nds
  induction nds with
  | nil =>
    intro acc r _ _ hok
    simp only [buildNodes, Except.ok.injEq] at hok
    simp [hok]
  | cons nd rest ih =>
    intro acc r hfresh hnd hok
    by_cases ht : nd.typ ∈ reg
    · simp only [buildNodes, if_pos ht] at hok
      have hacc : setA acc nd.id (NodeM.ofDef nd) = acc ++ [(nd.id, NodeM.ofDef nd)] :=
        setA_of_none acc nd.id _ (hfresh nd (List.mem_cons_self nd rest))
      rw [hacc] at hok
      have hnd2 : (∀ x ∈ rest, ¬ NodeDef.id x = nd.id) ∧
          (List.map NodeDef.id rest).Nodup := by
        simpa using hnd
      have hfresh2 : ∀ x ∈ rest,
          lookupA x.id (acc ++ [(nd.id, NodeM.ofDef nd)]) = none := by
        intro x hx
        rw [lookupA_append, hfresh x (List.mem_cons_of_mem nd hx)]
        have hxid : ¬ (nd.id = x.id) := fun hh => hnd2.1 x hx hh.symm
        simp [lookupA, hxid]
      have hrec := ih (acc ++ [(nd.id, NodeM.ofDef nd)]) r hfresh2 hnd2.2 hok
      rw [hrec]
      simp
    · simp [buildNodes, ht] at hok

/-- connectWires_ok_spec: on success with unique node keys, the resulting
wire map is the left fold of addWireMap over the wires, and the emitted
node views (id, type, name, config) are unchanged. -/
theorem connectWires_ok_spec :
    ∀ (ws : List WireDef) (nodes : List (String × NodeM))
      (wm : List (String × List String))
      (r : List (String × NodeM) × List (String × List String)),
      (List.map Prod.fst nodes).Nodup →
      connectWires nodes wm ws = .ok r →
      r.2 = List.foldl (fun acc w => addWireMap acc w.source w.target) wm ws ∧
      List.map sdNode r.1 = List.map sdNode nodes := by
  intro ws
  induction ws with
  | nil =>
    intro nodes wm r _ hok
    simp only [connectWires, Except.ok.injEq] at hok
    rw [← hok]
    exact ⟨rfl, rfl⟩
  | cons w ws ih =>
    intro nodes wm r hnd hok
    cases hsrc : lookupA w.source nodes with
    | none => simp [connectWires, hsrc] at hok
    | some src =>
      cases htgt : lookupA w.target nodes with
      | none => simp [connectWires, hsrc, htgt] at hok
      | some tgt =>
        simp only [connectWires, hsrc, htgt] at hok
        have hsome : (lookupA w.source nodes).isSome = true := by simp [hsrc]
        have hnd2 : (List.map Prod.fst
            (setA nodes w.source (NodeM.addWire src w.port w.target))).Nodup := by
          rw [map_fst_setA nodes w.source _ hsome]
          exact hnd
        obtain ⟨h2, h1⟩ := ih _ _ r hnd2 hok
        refine ⟨by rw [h2]; rfl, ?_⟩
        rw [h1]
        exact map_proj_setA sdNode w.source src (NodeM.addWire src w.port w.target)
          nodes hnd hsrc rfl

/-- C8 amended: for every valid definition (distinct node ids, all types
registered, no dangling wires — here: whenever construction succeeds),
construct-then-serialize returns the definition id (or the argument id
when the definition id is empty), name and description, the exact node set
(id, type, name, config) of the definition in order, and the definition
wires grouped by source node in insertion order with the emitted port
equal to the INDEX of the target inside its source's group — not the
definition's port.  No status field is part of the serialized view. -/
theorem newFlow_serialize_roundtrip (reg : List String) (id : String)
    (defM : FlowDefM) (f : FlowM)
    (hids : (List.map NodeDef.id defM.nodes).Nodup)
    (hok : NewFlow reg id defM = .ok f) :
    FlowM.toJSONDef f =
      { id := if defM.id = "" then id else defM.id,
        name := defM.name, descr := defM.descr,
        nodes := defM.nodes,
        wires := wiresFromMap (wireMapOf defM.wires) } := by
  unfold NewFlow at hok
  cases hb : buildNodes reg [] defM.nodes with
  | error e =>
    rw [hb] at hok
    simp at hok
  | ok ns =>
    rw [hb] at hok
    dsimp only at hok
    cases hc : connectWires ns [] defM.wires with
    | error e =>
      rw [hc] at hok
      simp at hok
    | ok pr =>
      rw [hc] at hok
      simp only [Except.ok.injEq] at hok
      subst hok
      have hns : ns = [] ++ List.map (fun nd => (nd.id, NodeM.ofDef nd)) defM.nodes :=
        buildNodes_eq_map reg defM.nodes [] ns (fun _ _ => rfl) hids hb
      simp only [List.nil_append] at hns
      have hndkeys : (List.map Prod.fst ns).Nodup := by
        rw [hns, List.map_map]
        have hco : (Prod.fst ∘ fun nd => (nd.id, NodeM.ofDef nd)) = NodeDef.id := by
          funext nd
          rfl
        rw [hco]
        exact hids
      obtain ⟨h2, h1⟩ := connectWires_ok_spec defM.wires ns [] pr hndkeys hc
      unfold FlowM.toJSONDef
      simp only [FlowDefM.mk.injEq, true_and, and_true]
      refine ⟨?_, ?_⟩
      · rw [h1, hns, List.map_map]
        have hco2 : (sdNode ∘ fun nd => (nd.id, NodeM.ofDef nd)) = fun nd => nd := by
          funext nd
          rfl
        rw [hco2, List.map_id']
      · rw [h2]
        rfl

/-- Concrete definition whose single wire is declared on port 1, for the
C8 counterexample. -/
def defC8 : FlowDefM :=
  { id := "f8", name := "F", descr := "",
    nodes := [{ id := "a", typ := "t", name := "A", config := "ca" },
              { id := "b", typ := "t", name := "B", config := "cb" }],
    wires := [{ source := "a", target := "b", port := 1 }] }

/-- C8 counterexample: constructing defC8 (one wire a to b on port 1) and
serializing emits that wire with port 0 — the slice index of b in the
source's target list — so the serialized wire set does not equal the
definition's wires, port index included.  (The serialized view also
carries no status field at all: FlowDefinition has none.) -/
theorem serialize_port_not_preserved_cex :
    Except.map (fun f => (FlowM.toJSONDef f).wires) (NewFlow ["t"] "f8" defC8) =
      .ok [{ source := "a", target := "b", port := 0 }] ∧
    defC8.wires = [{ source := "a", target := "b", port := 1 }] ∧
    ({ source := "a", target := "b", port := 0 : WireDef }) ≠
      { source := "a", target := "b", port := 1 } := by
  refine ⟨rfl, rfl, by decide⟩

/-- Concrete valid definition for the C8 witness. -/
def defC8w : FlowDefM :=
  { id := "fw", name := "N", descr := "D",
    nodes := [{ id := "a", typ := "t", name := "A", config := "ca" },
              { id := "b", typ := "t", name := "B", config := "cb" }],
    wires := [{ source := "a", target := "b", port := 0 },
              { source := "a", target := "a", port := 1 },
              { source := "b", target := "a", port := 0 }] }

/-- Concrete flow constructed from defC8w (the value NewFlow returns). -/
def flowC8w : FlowM :=
  { id := "fw", name := "N", descr := "D",
    nodes := [("a", { id := "a", name := "A", typeName := "t", config := "ca",
                      wires := [["b"], ["a"]], running := false,
                      startErr := none }),
              ("b", { id := "b", name := "B", typeName := "t", config := "cb",
                      wires := [["a"]], running := false, startErr := none })],
    wireMap := [("a", ["b", "a"]), ("b", ["a"])],
    status := FlowStatus.stopped }

/-- Witness for the amended C8. -/
theorem newFlow_serialize_roundtrip_witness :
    FlowM.toJSONDef flowC8w =
      { id := if defC8w.id = "" then "fw" else defC8w.id,
        name := defC8w.name, descr := defC8w.descr,
        nodes := defC8w.nodes,
        wires := wiresFromMap (wireMapOf defC8w.wires) } :=
  newFlow_serialize_roundtrip ["t"] "fw" defC8w flowC8w (by decide) rfl
